import Mathlib

/-!
Shallow embedding of `src/security/zap-baseline-scan.py` (class `ZapBaselineScan`).

The script drives an external scan engine over HTTP.  Every interaction with
the outside world (the engine process, HTTP requests, the filesystem clock)
is modelled by an environment record `Env` whose fields give the outcome of
each request the script can make; the script's control flow is then a pure
function of the environment, producing a list of observable events (the
requests it issued and the lifecycle actions it took) together with a final
result.  Pure parts of the script (report classification, the default-API-URL
computation, `has_auth`) are translated directly as Lean functions.
-/

/-- Outcome of one HTTP request made via `requests.get`: either a parsed value
(the request returned and parsing succeeded) or an exception was raised. -/
inductive Resp (α : Type) : Type
  | ok (val : α)
  | exn
deriving DecidableEq

/-- Outcome of one poll of the engine version endpoint inside
`start_zap_daemon`: an HTTP response with a status code, a
`requests.ConnectionError` (caught by the inner `except`, followed by a 2s
sleep), or any other exception (which escapes to the outer
`except Exception`). -/
inductive VResp : Type
  | status (code : Nat)
  | connErr
  | exn
deriving DecidableEq

/-- One alert dictionary as returned by the engine's alerts endpoint.
`none` models an absent key, read by the Python code with `dict.get`. -/
structure Alert : Type where
  risk : Option String
  alert : Option String
  desc : Option String
  solution : Option String
  url : Option String
  param : Option String
  evidence : Option String
deriving DecidableEq

/-- One entry of `detailed_findings` as built by `generate_report`. -/
structure Finding : Type where
  name : String
  description : String
  solution : String
  url : String
  param : String
  evidence : String
deriving DecidableEq

/-- The dictionary literal appended in `generate_report`:
field-by-field `alert.get(key, default)`. -/
def mkFinding (a : Alert) : Finding :=
  { name := a.alert.getD "Unknown"
    description := a.desc.getD ""
    solution := a.solution.getD ""
    url := a.url.getD ""
    param := a.param.getD ""
    evidence := a.evidence.getD "" }

/-- `alert.get('risk', 'Informational')`. -/
def classify (a : Alert) : String := a.risk.getD "Informational"

/-- The `risk_counts` dictionary, whose keys are fixed at
`{'High', 'Medium', 'Low', 'Informational'}`. -/
structure RiskCounts : Type where
  high : Nat
  medium : Nat
  low : Nat
  info : Nat
deriving DecidableEq

/-- The `detailed_findings` dictionary, same four fixed keys. -/
structure DetailedFindings : Type where
  high : List Finding
  medium : List Finding
  low : List Finding
  info : List Finding
deriving DecidableEq

/-- One iteration of the classification loop in `generate_report`:
`risk_counts[risk] += 1; detailed_findings[risk].append(...)`.
Indexing the dictionaries with a key outside the four fixed ones raises a
`KeyError`, modelled as `Except.error ()`. -/
def bump (c : RiskCounts) (d : DetailedFindings) (a : Alert) :
    Except Unit (RiskCounts × DetailedFindings) :=
  let r := classify a
  if r = "High" then
    .ok ({ c with high := c.high + 1 }, { d with high := d.high ++ [mkFinding a] })
  else if r = "Medium" then
    .ok ({ c with medium := c.medium + 1 }, { d with medium := d.medium ++ [mkFinding a] })
  else if r = "Low" then
    .ok ({ c with low := c.low + 1 }, { d with low := d.low ++ [mkFinding a] })
  else if r = "Informational" then
    .ok ({ c with info := c.info + 1 }, { d with info := d.info ++ [mkFinding a] })
  else
    .error ()

/-- The `for alert in alerts:` loop of `generate_report`, threading the two
dictionaries; a `KeyError` aborts the loop (and the whole call). -/
def processAlerts : List Alert → RiskCounts → DetailedFindings →
    Except Unit (RiskCounts × DetailedFindings)
  | [], c, d => .ok (c, d)
  | a :: rest, c, d =>
    match bump c d a with
    | .error u => .error u
    | .ok (c2, d2) => processAlerts rest c2 d2

/-- The `report` dictionary built by `generate_report`. -/
structure Report : Type where
  scan_date : String
  target_url : String
  summary : RiskCounts
  findings : DetailedFindings
  total_alerts : Nat
deriving DecidableEq

/-- The pure part of `generate_report`: classification of the alerts list and
construction of the `report` dictionary (`now` stands for
`time.strftime(...)`).  `Except.error ()` is the `KeyError` raised when an
alert carries a risk outside the four fixed dictionary keys. -/
def generate_report (now target : String) (alerts : List Alert) :
    Except Unit Report :=
  match processAlerts alerts ⟨0, 0, 0, 0⟩ ⟨[], [], [], []⟩ with
  | .error u => .error u
  | .ok (c, d) =>
    .ok { scan_date := now, target_url := target, summary := c, findings := d
          total_alerts := alerts.length }

/-- `has_auth`: probes `{target_url}/api/health`; returns
`status_code == 401`, and the bare `except:` turns every exception (connection
error, timeout, ...) into `False`.  The function is total: it never raises. -/
def has_auth (r : Resp Nat) : Bool :=
  match r with
  | .ok n => n == 401
  | .exn => false

/-- Python `str.replace(pat, rep)` with a non-empty pattern `p :: ps`:
left-to-right replacement of every non-overlapping occurrence.  The `fuel`
argument makes the recursion structural; called with `fuel = s.length` the
`0`-fuel fallback (which returns the remaining suffix unchanged) is never
reached, because every step consumes one unit of fuel and at least one
character. -/
def pyReplace (p : Char) (ps rep : List Char) : Nat → List Char → List Char
  | 0, s => s
  | _ + 1, [] => []
  | fuel + 1, c :: s =>
    if (p :: ps).isPrefixOf (c :: s) then
      rep ++ pyReplace p ps rep fuel (s.drop ps.length)
    else
      c :: pyReplace p ps rep fuel s

/-- Whether `p :: ps` occurs as a contiguous substring of `s`. -/
def hasSub (p : Char) (ps : List Char) : List Char → Bool
  | [] => false
  | c :: s => (p :: ps).isPrefixOf (c :: s) || hasSub p ps s

/-- The characters of `":3000"`. -/
def pat3000 : List Char := [':', '3', '0', '0', '0']

/-- `target_url.replace(':3000', ':8080')`, the default taken in
`__init__` for the API URL. -/
def defaultApiUrl (target : String) : String :=
  ⟨pyReplace ':' ['3', '0', '0', '0'] [':', '8', '0', '8', '0']
    target.data.length target.data⟩

/-- `self.api_url = api_url or target_url.replace(':3000', ':8080')`:
`or` means the default is taken both when no argument was supplied and when
the supplied string is empty (falsy). -/
def initApiUrl (target : String) (api : Option String) : String :=
  match api with
  | some a => if a = "" then defaultApiUrl target else a
  | none => defaultApiUrl target

/-- Observable actions of one run: the HTTP requests the script issues
(with, for the two polling loops, the parsed status they observed) and the
process-lifecycle actions (`spawn` for `subprocess.Popen`, `stop` for
`terminate()` followed by `wait()` in `stop_zap`). -/
inductive Event : Type
  | spawn
  | versionReq
  | includeCtxReq
  | healthProbe
  | spiderStartReq
  | spiderStatus (r : Resp String)
  | ascanStartReq
  | ascanStatus (r : Resp String)
  | alertsReq
  | jsonWrite
  | htmlReq
  | stop
deriving DecidableEq

/-- The environment of one run: the outcome of every request the script can
make, indexed by poll number where the script polls repeatedly. -/
structure Env : Type where
  /-- whether `subprocess.Popen` succeeds (otherwise the surrounding
  `except Exception` in `start_zap_daemon` returns `False`). -/
  spawnOk : Bool
  /-- outcome of the k-th poll of `/JSON/core/view/version/`. -/
  version : Nat → VResp
  /-- outcome of the `includeInContext` request in `configure_zap`. -/
  includeCtx : Resp Unit
  /-- outcome of the `/api/health` probe in `has_auth`. -/
  health : Resp Nat
  /-- outcome of the spider start request (`.json()['scan']`). -/
  spiderStart : Resp String
  /-- status string from the k-th spider status poll. -/
  spiderStatus : Nat → Resp String
  /-- outcome of the active-scan start request. -/
  ascanStart : Resp String
  /-- status string from the k-th active-scan status poll. -/
  ascanStatus : Nat → Resp String
  /-- outcome of the alerts request in `get_scan_results`
  (`.json().get('alerts', [])`). -/
  alerts : Resp (List Alert)
  /-- whether `open(...)` / `json.dump` succeed. -/
  jsonWriteOk : Bool
  /-- outcome of the HTML-report request in `generate_report`. -/
  htmlResp : Resp Unit
  /-- `time.strftime('%Y-%m-%d %H:%M:%S')`. -/
  now : String
  /-- the target URL of the scan. -/
  targetUrl : String

/-- Result of one phase of the `try:` block: it returned, it raised an
exception, or its polling loop never terminates (`while True:` with a status
that never reaches `'100'`; `spin` marks fuel exhaustion in the model). -/
inductive PhaseRes : Type
  | ok
  | exn
  | spin
deriving DecidableEq

/-- The readiness loop of `start_zap_daemon`: up to `n` polls (30 in the
source) of the version endpoint, starting at poll number `k`.  A 200 response
returns `True`; a `ConnectionError` sleeps 2s and retries; any other
response status just retries (no sleep); any other exception escapes to the
outer handler, which returns `False`.  Returns the events and the result. -/
def waitReady (e : Env) : Nat → Nat → List Event × Bool
  | _, 0 => ([], false)
  | k, n + 1 =>
    match e.version k with
    | .status m =>
      if m = 200 then ([.versionReq], true)
      else (.versionReq :: (waitReady e (k + 1) n).1, (waitReady e (k + 1) n).2)
    | .connErr => (.versionReq :: (waitReady e (k + 1) n).1, (waitReady e (k + 1) n).2)
    | .exn => ([.versionReq], false)

/-- `start_zap_daemon`: spawn the engine process, then run the readiness
loop with `max_attempts = 30`; if `Popen` raises, return `False` without
spawning. -/
def start_zap_daemon (e : Env) : List Event × Bool :=
  if e.spawnOk then (.spawn :: (waitReady e 0 30).1, (waitReady e 0 30).2)
  else ([], false)

/-- `configure_zap`: the `includeInContext` request (an exception propagates);
then `has_auth` (total, see `has_auth`); `configure_authentication` is `pass`,
so the probe's outcome has no further effect. -/
def configure_zap (e : Env) : List Event × PhaseRes :=
  match e.includeCtx with
  | .exn => ([.includeCtxReq], .exn)
  | .ok _ => ([.includeCtxReq, .healthProbe], .ok)

/-- The `while True:` status loop of `run_spider_scan`, polling from poll
number `k` with the given fuel: stops when a poll returns `'100'`, raises if
a poll raises, otherwise sleeps 2s and polls again. -/
def spiderPoll (e : Env) : Nat → Nat → List Event × PhaseRes
  | _, 0 => ([], .spin)
  | k, n + 1 =>
    match e.spiderStatus k with
    | .exn => ([.spiderStatus .exn], .exn)
    | .ok s =>
      if s = "100" then ([.spiderStatus (.ok s)], .ok)
      else (.spiderStatus (.ok s) :: (spiderPoll e (k + 1) n).1,
            (spiderPoll e (k + 1) n).2)

/-- `run_spider_scan`: submit the spider scan (an exception in the request or
in `.json()['scan']` propagates), then poll its status to completion. -/
def run_spider_scan (e : Env) (fuel : Nat) : List Event × PhaseRes :=
  match e.spiderStart with
  | .exn => ([.spiderStartReq], .exn)
  | .ok _ => (.spiderStartReq :: (spiderPoll e 0 fuel).1, (spiderPoll e 0 fuel).2)

/-- The `while True:` status loop of `run_active_scan` (5s sleep and a
progress print per iteration, not modelled). -/
def ascanPoll (e : Env) : Nat → Nat → List Event × PhaseRes
  | _, 0 => ([], .spin)
  | k, n + 1 =>
    match e.ascanStatus k with
    | .exn => ([.ascanStatus .exn], .exn)
    | .ok s =>
      if s = "100" then ([.ascanStatus (.ok s)], .ok)
      else (.ascanStatus (.ok s) :: (ascanPoll e (k + 1) n).1,
            (ascanPoll e (k + 1) n).2)

/-- `run_active_scan`: submit the active scan, then poll to completion. -/
def run_active_scan (e : Env) (fuel : Nat) : List Event × PhaseRes :=
  match e.ascanStart with
  | .exn => ([.ascanStartReq], .exn)
  | .ok _ => (.ascanStartReq :: (ascanPoll e 0 fuel).1, (ascanPoll e 0 fuel).2)

/-- `get_scan_results`: one alerts request; `.json()` may raise. -/
def get_scan_results (e : Env) : List Event × PhaseRes :=
  ([.alertsReq],
   match e.alerts with
   | .ok _ => .ok
   | .exn => .exn)

/-- The effectful part of `generate_report`, in source order: the
classification loop (a `KeyError` aborts before anything is written), then
`open`/`json.dump` of the JSON report, then the HTML-report request issued
with no surrounding `try:` (so an exception there propagates), then the
summary prints (not modelled). -/
def generate_report_events (e : Env) : List Event × PhaseRes :=
  match e.alerts with
  | .exn => ([], .exn)
  | .ok alerts =>
    match generate_report e.now e.targetUrl alerts with
    | .error _ => ([], .exn)
    | .ok _ =>
      if e.jsonWriteOk then
        match e.htmlResp with
        | .ok _ => ([.jsonWrite, .htmlReq], .ok)
        | .exn => ([.jsonWrite, .htmlReq], .exn)
      else ([], .exn)

/-- Sequencing of two phases: the second runs only if the first returned;
an exception or divergence in the first cuts the sequence short. -/
def andThen (x : List Event × PhaseRes) (f : Unit → List Event × PhaseRes) :
    List Event × PhaseRes :=
  match x.2 with
  | .ok => (x.1 ++ (f ()).1, (f ()).2)
  | .exn => (x.1, .exn)
  | .spin => (x.1, .spin)

/-- The body of the `try:` block in `run_full_scan`: configure, spider,
active scan, fetch results, generate report — each step runs only if the
previous one returned normally. -/
def tryBlock (e : Env) (fuel : Nat) : List Event × PhaseRes :=
  andThen (configure_zap e) (fun _ =>
    andThen (run_spider_scan e fuel) (fun _ =>
      andThen (run_active_scan e fuel) (fun _ =>
        andThen (get_scan_results e) (fun _ =>
          generate_report_events e))))

/-- How one run ends: normal return from `run_full_scan` (the interpreter
then exits 0), `sys.exit(1)` from the failed-start branch, an uncaught
exception escaping `run_full_scan` (the interpreter prints a traceback and
exits 1), or a never-terminating polling loop. -/
inductive RunResult : Type
  | completed
  | exit1
  | raised
  | spin
deriving DecidableEq

/-- `run_full_scan`: if `start_zap_daemon` returns `False`, `sys.exit(1)` —
note this happens before the `try:`/`finally:`, so `stop_zap` is not invoked
on that path.  Otherwise run the `try:` block; the `finally:` calls
`stop_zap`, which (since the process was spawned on every path that reaches
the `try:`) terminates and waits on the engine process — the `.stop` event.
A diverging polling loop never reaches the `finally:`. -/
def run_full_scan (e : Env) (fuel : Nat) : List Event × RunResult :=
  if (start_zap_daemon e).2 then
    match (tryBlock e fuel).2 with
    | .ok => ((start_zap_daemon e).1 ++ (tryBlock e fuel).1 ++ [.stop], .completed)
    | .exn => ((start_zap_daemon e).1 ++ (tryBlock e fuel).1 ++ [.stop], .raised)
    | .spin => ((start_zap_daemon e).1 ++ (tryBlock e fuel).1, .spin)
  else ((start_zap_daemon e).1, .exit1)

/-- The process exit status determined by the run result: `run_full_scan`
returning normally lets `main` return, so the interpreter exits 0;
`sys.exit(1)` exits 1; an uncaught exception makes the interpreter exit 1;
a diverging loop never exits. -/
def exit_code : RunResult → Option Nat
  | .completed => some 0
  | .exit1 => some 1
  | .raised => some 1
  | .spin => none

/-- Exit status of one whole run of the script. -/
def script_exit (e : Env) (fuel : Nat) : Option Nat :=
  exit_code (run_full_scan e fuel).2

/-- Number of engine-shutdown invocations (`terminate()` + `wait()`) in a
trace. -/
def countStop : List Event → Nat
  | [] => 0
  | a :: t => (if a = Event.stop then 1 else 0) + countStop t

/-- An environment in which every step of the run succeeds immediately:
the engine is ready on the first poll, both scans report `'100'` on their
first status poll, and no request raises. -/
def envOk : Env :=
  { spawnOk := true
    version := fun _ => .status 200
    includeCtx := .ok ()
    health := .ok 200
    spiderStart := .ok "1"
    spiderStatus := fun _ => .ok "100"
    ascanStart := .ok "2"
    ascanStatus := fun _ => .ok "100"
    alerts := .ok []
    jsonWriteOk := true
    htmlResp := .ok ()
    now := "2026-01-01 00:00:00"
    targetUrl := "http://localhost:3000" }

/-- The engine process spawns but never answers the version endpoint: every
readiness poll raises `ConnectionError`, so readiness times out. -/
def envNoReady : Env := { envOk with version := fun _ => .connErr }

/-- Every readiness poll returns HTTP 204 (a 2xx status that is not 200). -/
def env204 : Env := { envOk with version := fun _ => .status 204 }

/-- Everything succeeds except the HTML-report request, which raises. -/
def envHtmlFail : Env := { envOk with htmlResp := .exn }

/-- An alert dictionary with no keys at all (in particular no `risk`). -/
def alertBare : Alert := ⟨none, none, none, none, none, none, none⟩

/-- An alert whose `risk` value is outside the four fixed dictionary keys. -/
def alertCritical : Alert := { alertBare with risk := some "Critical" }

/-- An alert with `risk` `High` and a name. -/
def alertHigh : Alert := { alertBare with risk := some "High", alert := some "XSS" }

/-- Alerts used to instantiate the report theorems. -/
def sampleAlerts : List Alert := [alertHigh, alertBare]

/-- The report `generate_report` produces on `sampleAlerts`. -/
def sampleReport : Report :=
  { scan_date := "d", target_url := "u"
    summary := ⟨1, 0, 0, 1⟩
    findings := ⟨[⟨"XSS", "", "", "", "", ""⟩], [], [],
                 [⟨"Unknown", "", "", "", "", ""⟩]⟩
    total_alerts := 2 }

/-- The findings of `l` whose classified severity is `s`, in retrieval
order: the reference value for one bucket of `detailed_findings`. -/
def bucketList (s : String) : List Alert → List Finding
  | [] => []
  | a :: t => if classify a = s then mkFinding a :: bucketList s t else bucketList s t

lemma countStop_append (A B : List Event) :
    countStop (A ++ B) = countStop A + countStop B := by
  induction A with
  | nil => simp [countStop]
  | cons a t ih => simp [countStop, ih]; omega

lemma countStop_eq_zero {A : List Event} (h : Event.stop ∉ A) :
    countStop A = 0 := by
  induction A with
  | nil => rfl
  | cons a t ih =>
    rw [List.mem_cons, not_or] at h
    have ha : ¬ a = Event.stop := fun hh => h.1 hh.symm
    simp [countStop, ha, ih h.2]

lemma mem_left_of_append_eq {α : Type} (A B l r : List α) (x y : α)
    (hx : x ∉ A) (hy : y ∈ A) : A ++ B = l ++ x :: r → y ∈ l := by
  induction A generalizing l with
  | nil => cases hy
  | cons a t ih =>
    intro h
    rw [List.mem_cons, not_or] at hx
    cases l with
    | nil =>
      rw [List.cons_append, List.nil_append] at h
      exact absurd (List.cons.injEq .. ▸ h).1.symm hx.1
    | cons b l2 =>
      rw [List.cons_append, List.cons_append] at h
      have h1 : a = b := (List.cons.injEq .. ▸ h).1
      have h2 : t ++ B = l2 ++ x :: r := (List.cons.injEq .. ▸ h).2
      rcases List.mem_cons.mp hy with h3 | h3
      · exact h3 ▸ h1 ▸ List.mem_cons_self _ _
      · exact List.mem_cons_of_mem _ (ih l2 hx.2 h3 h2)


lemma waitReady_events (e : Env) :
    ∀ n k ev, ev ∈ (waitReady e k n).1 → ev = Event.versionReq := by
  intro n
  induction n with
  | zero => intro k ev h; simp [waitReady] at h
  | succ n ih =>
    intro k ev h
    rcases hv : e.version k with m | _ | _
    · by_cases hm : m = 200
      · simp [waitReady, hv, hm] at h
        exact h
      · simp [waitReady, hv, hm] at h
        rcases h with h1 | h1
        · exact h1
        · exact ih (k + 1) ev h1
    · simp [waitReady, hv] at h
      rcases h with h1 | h1
      · exact h1
      · exact ih (k + 1) ev h1
    · simp [waitReady, hv] at h
      exact h

lemma start_events (e : Env) :
    ∀ ev ∈ (start_zap_daemon e).1, ev = Event.spawn ∨ ev = Event.versionReq := by
  intro ev h
  by_cases hs : e.spawnOk
  · simp [start_zap_daemon, hs] at h
    rcases h with h1 | h1
    · exact Or.inl h1
    · exact Or.inr (waitReady_events e 30 0 ev h1)
  · simp [start_zap_daemon, hs] at h

lemma configure_events (e : Env) :
    ∀ ev ∈ (configure_zap e).1,
      ev = Event.includeCtxReq ∨ ev = Event.healthProbe := by
  intro ev h
  cases hc : e.includeCtx with
  | exn => simp [configure_zap, hc] at h; exact Or.inl h
  | ok v => simp [configure_zap, hc] at h; exact h

lemma spiderPoll_events (e : Env) :
    ∀ n k ev, ev ∈ (spiderPoll e k n).1 → ∃ r, ev = Event.spiderStatus r := by
  intro n
  induction n with
  | zero => intro k ev h; simp [spiderPoll] at h
  | succ n ih =>
    intro k ev h
    cases hv : e.spiderStatus k with
    | exn =>
      simp [spiderPoll, hv] at h
      exact ⟨.exn, h⟩
    | ok s =>
      by_cases hs : s = "100"
      · simp [spiderPoll, hv, hs] at h
        exact ⟨.ok "100", by rw [h]⟩
      · simp [spiderPoll, hv, hs] at h
        rcases h with h1 | h1
        · exact ⟨.ok s, h1⟩
        · exact ih (k + 1) ev h1

lemma spider_events (e : Env) (fuel : Nat) :
    ∀ ev ∈ (run_spider_scan e fuel).1,
      ev = Event.spiderStartReq ∨ ∃ r, ev = Event.spiderStatus r := by
  intro ev h
  cases hv : e.spiderStart with
  | exn => simp [run_spider_scan, hv] at h; exact Or.inl h
  | ok s =>
    simp [run_spider_scan, hv] at h
    rcases h with h1 | h1
    · exact Or.inl h1
    · exact Or.inr (spiderPoll_events e fuel 0 ev h1)

lemma ascanPoll_events (e : Env) :
    ∀ n k ev, ev ∈ (ascanPoll e k n).1 → ∃ r, ev = Event.ascanStatus r := by
  intro n
  induction n with
  | zero => intro k ev h; simp [ascanPoll] at h
  | succ n ih =>
    intro k ev h
    cases hv : e.ascanStatus k with
    | exn =>
      simp [ascanPoll, hv] at h
      exact ⟨.exn, h⟩
    | ok s =>
      by_cases hs : s = "100"
      · simp [ascanPoll, hv, hs] at h
        exact ⟨.ok "100", by rw [h]⟩
      · simp [ascanPoll, hv, hs] at h
        rcases h with h1 | h1
        · exact ⟨.ok s, h1⟩
        · exact ih (k + 1) ev h1

lemma ascan_events (e : Env) (fuel : Nat) :
    ∀ ev ∈ (run_active_scan e fuel).1,
      ev = Event.ascanStartReq ∨ ∃ r, ev = Event.ascanStatus r := by
  intro ev h
  cases hv : e.ascanStart with
  | exn => simp [run_active_scan, hv] at h; exact Or.inl h
  | ok s =>
    simp [run_active_scan, hv] at h
    rcases h with h1 | h1
    · exact Or.inl h1
    · exact Or.inr (ascanPoll_events e fuel 0 ev h1)

lemma report_events (e : Env) :
    ∀ ev ∈ (generate_report_events e).1,
      ev = Event.jsonWrite ∨ ev = Event.htmlReq := by
  intro ev h
  cases ha : e.alerts with
  | exn => simp [generate_report_events, ha] at h
  | ok alerts =>
    cases hg : generate_report e.now e.targetUrl alerts with
    | error u => simp [generate_report_events, ha, hg] at h
    | ok rep =>
      by_cases hj : e.jsonWriteOk
      · cases hh : e.htmlResp with
        | ok v => simp [generate_report_events, ha, hg, hj, hh] at h; exact h
        | exn => simp [generate_report_events, ha, hg, hj, hh] at h; exact h
      · simp [generate_report_events, ha, hg, hj] at h

lemma mem_andThen {ev : Event} {x : List Event × PhaseRes}
    {f : Unit → List Event × PhaseRes} (h : ev ∈ (andThen x f).1) :
    ev ∈ x.1 ∨ ev ∈ (f ()).1 := by
  cases hx : x.2 with
  | ok => simp [andThen, hx] at h; exact h
  | exn => simp [andThen, hx] at h; exact Or.inl h
  | spin => simp [andThen, hx] at h; exact Or.inl h

lemma configure_ne_spin (e : Env) : (configure_zap e).2 ≠ .spin := by
  cases hc : e.includeCtx <;> simp [configure_zap, hc]

lemma results_ne_spin (e : Env) : (get_scan_results e).2 ≠ .spin := by
  cases ha : e.alerts <;> simp [get_scan_results, ha]

lemma spiderPoll_ok_mem (e : Env) :
    ∀ n k, (spiderPoll e k n).2 = .ok →
      Event.spiderStatus (Resp.ok "100") ∈ (spiderPoll e k n).1 := by
  intro n
  induction n with
  | zero => intro k h; simp [spiderPoll] at h
  | succ n ih =>
    intro k h
    cases hv : e.spiderStatus k with
    | exn => simp [spiderPoll, hv] at h
    | ok s =>
      by_cases hs : s = "100"
      · simp [spiderPoll, hv, hs]
      · simp [spiderPoll, hv, hs] at h ⊢
        exact Or.inr (ih (k + 1) h)

lemma spider_ok_mem (e : Env) (fuel : Nat)
    (h : (run_spider_scan e fuel).2 = .ok) :
    Event.spiderStatus (Resp.ok "100") ∈ (run_spider_scan e fuel).1 := by
  cases hv : e.spiderStart with
  | exn => simp [run_spider_scan, hv] at h
  | ok s =>
    simp [run_spider_scan, hv] at h ⊢
    exact spiderPoll_ok_mem e fuel 0 h

lemma tryBlock_cases (e : Env) (fuel : Nat) :
    ((configure_zap e).2 = .exn ∧
      tryBlock e fuel = ((configure_zap e).1, .exn)) ∨
    ((configure_zap e).2 = .ok ∧ (run_spider_scan e fuel).2 = .exn ∧
      tryBlock e fuel = ((configure_zap e).1 ++ (run_spider_scan e fuel).1, .exn)) ∨
    ((configure_zap e).2 = .ok ∧ (run_spider_scan e fuel).2 = .spin ∧
      tryBlock e fuel = ((configure_zap e).1 ++ (run_spider_scan e fuel).1, .spin)) ∨
    ((configure_zap e).2 = .ok ∧ (run_spider_scan e fuel).2 = .ok ∧
      (run_active_scan e fuel).2 = .exn ∧
      tryBlock e fuel = ((configure_zap e).1 ++ ((run_spider_scan e fuel).1 ++
        (run_active_scan e fuel).1), .exn)) ∨
    ((configure_zap e).2 = .ok ∧ (run_spider_scan e fuel).2 = .ok ∧
      (run_active_scan e fuel).2 = .spin ∧
      tryBlock e fuel = ((configure_zap e).1 ++ ((run_spider_scan e fuel).1 ++
        (run_active_scan e fuel).1), .spin)) ∨
    ((configure_zap e).2 = .ok ∧ (run_spider_scan e fuel).2 = .ok ∧
      (run_active_scan e fuel).2 = .ok ∧ (get_scan_results e).2 = .exn ∧
      tryBlock e fuel = ((configure_zap e).1 ++ ((run_spider_scan e fuel).1 ++
        ((run_active_scan e fuel).1 ++ [.alertsReq])), .exn)) ∨
    ((configure_zap e).2 = .ok ∧ (run_spider_scan e fuel).2 = .ok ∧
      (run_active_scan e fuel).2 = .ok ∧ (get_scan_results e).2 = .ok ∧
      tryBlock e fuel = ((configure_zap e).1 ++ ((run_spider_scan e fuel).1 ++
        ((run_active_scan e fuel).1 ++ ([.alertsReq] ++
          (generate_report_events e).1))), (generate_report_events e).2)) := by
  have hres : (get_scan_results e).1 = [.alertsReq] := by
    cases ha : e.alerts <;> rfl
  cases hc : (configure_zap e).2 with
  | spin => exact absurd hc (configure_ne_spin e)
  | exn => exact Or.inl ⟨rfl, by simp [tryBlock, andThen, hc]⟩
  | ok =>
    cases hsp : (run_spider_scan e fuel).2 with
    | exn =>
      refine Or.inr (Or.inl ⟨rfl, rfl, ?_⟩)
      simp [tryBlock, andThen, hc, hsp]
    | spin =>
      refine Or.inr (Or.inr (Or.inl ⟨rfl, rfl, ?_⟩))
      simp [tryBlock, andThen, hc, hsp]
    | ok =>
      cases has : (run_active_scan e fuel).2 with
      | exn =>
        refine Or.inr (Or.inr (Or.inr (Or.inl ⟨rfl, rfl, rfl, ?_⟩)))
        simp [tryBlock, andThen, hc, hsp, has]
      | spin =>
        refine Or.inr (Or.inr (Or.inr (Or.inr (Or.inl ⟨rfl, rfl, rfl, ?_⟩))))
        simp [tryBlock, andThen, hc, hsp, has]
      | ok =>
        cases hgr : (get_scan_results e).2 with
        | spin => exact absurd hgr (results_ne_spin e)
        | exn =>
          refine Or.inr (Or.inr (Or.inr (Or.inr (Or.inr (Or.inl
            ⟨rfl, rfl, rfl, rfl, ?_⟩)))))
          simp [tryBlock, andThen, hc, hsp, has, hgr, hres]
        | ok =>
          refine Or.inr (Or.inr (Or.inr (Or.inr (Or.inr (Or.inr
            ⟨rfl, rfl, rfl, rfl, ?_⟩)))))
          simp [tryBlock, andThen, hc, hsp, has, hgr, hres]

lemma run_full_scan_cases (e : Env) (fuel : Nat) :
    ((start_zap_daemon e).2 = false ∧
      run_full_scan e fuel = ((start_zap_daemon e).1, .exit1)) ∨
    ((start_zap_daemon e).2 = true ∧ (tryBlock e fuel).2 = .ok ∧
      run_full_scan e fuel =
        ((start_zap_daemon e).1 ++ (tryBlock e fuel).1 ++ [.stop], .completed)) ∨
    ((start_zap_daemon e).2 = true ∧ (tryBlock e fuel).2 = .exn ∧
      run_full_scan e fuel =
        ((start_zap_daemon e).1 ++ (tryBlock e fuel).1 ++ [.stop], .raised)) ∨
    ((start_zap_daemon e).2 = true ∧ (tryBlock e fuel).2 = .spin ∧
      run_full_scan e fuel =
        ((start_zap_daemon e).1 ++ (tryBlock e fuel).1, .spin)) := by
  by_cases hs : (start_zap_daemon e).2 = true
  · cases ht : (tryBlock e fuel).2 with
    | ok => exact Or.inr (Or.inl ⟨hs, rfl, by simp [run_full_scan, hs, ht]⟩)
    | exn => exact Or.inr (Or.inr (Or.inl ⟨hs, rfl, by simp [run_full_scan, hs, ht]⟩))
    | spin =>
      exact Or.inr (Or.inr (Or.inr ⟨hs, rfl, by simp [run_full_scan, hs, ht]⟩))
  · have hs2 : (start_zap_daemon e).2 = false := by
      cases hb : (start_zap_daemon e).2
      · rfl
      · exact absurd hb hs
    exact Or.inl ⟨hs2, by simp [run_full_scan, hs2]⟩

lemma stop_not_mem_start (e : Env) : Event.stop ∉ (start_zap_daemon e).1 := by
  intro h
  rcases start_events e _ h with h1 | h1 <;> cases h1

lemma stop_not_mem_tryBlock (e : Env) (fuel : Nat) :
    Event.stop ∉ (tryBlock e fuel).1 := by
  intro h
  rcases mem_andThen h with h1 | h1
  · rcases configure_events e _ h1 with h2 | h2 <;> cases h2
  rcases mem_andThen h1 with h3 | h3
  · rcases spider_events e fuel _ h3 with h4 | ⟨r, h4⟩ <;> cases h4
  rcases mem_andThen h3 with h5 | h5
  · rcases ascan_events e fuel _ h5 with h6 | ⟨r, h6⟩ <;> cases h6
  rcases mem_andThen h5 with h7 | h7
  · have : (get_scan_results e).1 = [.alertsReq] := by cases ha : e.alerts <;> rfl
    rw [this] at h7
    simp at h7
  · rcases report_events e _ h7 with h8 | h8 <;> cases h8

lemma bump_high {a : Alert} (h : classify a = "High")
    (c : RiskCounts) (d : DetailedFindings) :
    bump c d a = .ok ({ c with high := c.high + 1 },
      { d with high := d.high ++ [mkFinding a] }) := by
  simp [bump, h]

lemma bump_medium {a : Alert} (h : classify a = "Medium")
    (c : RiskCounts) (d : DetailedFindings) :
    bump c d a = .ok ({ c with medium := c.medium + 1 },
      { d with medium := d.medium ++ [mkFinding a] }) := by
  simp [bump, h]

lemma bump_low {a : Alert} (h : classify a = "Low")
    (c : RiskCounts) (d : DetailedFindings) :
    bump c d a = .ok ({ c with low := c.low + 1 },
      { d with low := d.low ++ [mkFinding a] }) := by
  simp [bump, h]

lemma bump_info {a : Alert} (h : classify a = "Informational")
    (c : RiskCounts) (d : DetailedFindings) :
    bump c d a = .ok ({ c with info := c.info + 1 },
      { d with info := d.info ++ [mkFinding a] }) := by
  simp [bump, h]

lemma bump_bad {a : Alert} (h1 : classify a ≠ "High") (h2 : classify a ≠ "Medium")
    (h3 : classify a ≠ "Low") (h4 : classify a ≠ "Informational")
    (c : RiskCounts) (d : DetailedFindings) :
    bump c d a = .error () := by
  simp [bump, h1, h2, h3, h4]

lemma processAlerts_spec (l : List Alert) :
    ∀ c d c2 d2, processAlerts l c d = .ok (c2, d2) →
      c2.high + c2.medium + c2.low + c2.info =
        c.high + c.medium + c.low + c.info + l.length ∧
      d2.high = d.high ++ bucketList "High" l ∧
      d2.medium = d.medium ++ bucketList "Medium" l ∧
      d2.low = d.low ++ bucketList "Low" l ∧
      d2.info = d.info ++ bucketList "Informational" l := by
  induction l with
  | nil =>
    intro c d c2 d2 h
    simp [processAlerts] at h
    obtain ⟨h1, h2⟩ := h
    subst h1
    subst h2
    simp [bucketList]
  | cons a l ih =>
    intro c d c2 d2 h
    by_cases hH : classify a = "High"
    · simp only [processAlerts, bump_high hH] at h
      obtain ⟨hs, hh, hm, hl, hi⟩ := ih _ _ _ _ h
      refine ⟨?_, ?_, ?_, ?_, ?_⟩
      · simp at hs ⊢; omega
      · rw [hh]; simp [bucketList, hH]
      · rw [hm]; simp [bucketList, hH]
      · rw [hl]; simp [bucketList, hH]
      · rw [hi]; simp [bucketList, hH]
    · by_cases hM : classify a = "Medium"
      · simp only [processAlerts, bump_medium hM] at h
        obtain ⟨hs, hh, hm, hl, hi⟩ := ih _ _ _ _ h
        refine ⟨?_, ?_, ?_, ?_, ?_⟩
        · simp at hs ⊢; omega
        · rw [hh]; simp [bucketList, hM]
        · rw [hm]; simp [bucketList, hM]
        · rw [hl]; simp [bucketList, hM]
        · rw [hi]; simp [bucketList, hM]
      · by_cases hL : classify a = "Low"
        · simp only [processAlerts, bump_low hL] at h
          obtain ⟨hs, hh, hm, hl, hi⟩ := ih _ _ _ _ h
          refine ⟨?_, ?_, ?_, ?_, ?_⟩
          · simp at hs ⊢; omega
          · rw [hh]; simp [bucketList, hL]
          · rw [hm]; simp [bucketList, hL]
          · rw [hl]; simp [bucketList, hL]
          · rw [hi]; simp [bucketList, hL]
        · by_cases hI : classify a = "Informational"
          · simp only [processAlerts, bump_info hI] at h
            obtain ⟨hs, hh, hm, hl, hi⟩ := ih _ _ _ _ h
            refine ⟨?_, ?_, ?_, ?_, ?_⟩
            · simp at hs ⊢; omega
            · rw [hh]; simp [bucketList, hI]
            · rw [hm]; simp [bucketList, hI]
            · rw [hl]; simp [bucketList, hI]
            · rw [hi]; simp [bucketList, hI]
          · simp only [processAlerts, bump_bad hH hM hL hI] at h
            exact Except.noConfusion h

lemma generate_report_spec {now target : String} {alerts : List Alert} {r : Report}
    (h : generate_report now target alerts = .ok r) :
    r.scan_date = now ∧ r.target_url = target ∧
    r.summary.high + r.summary.medium + r.summary.low + r.summary.info =
      alerts.length ∧
    r.total_alerts = alerts.length ∧
    r.findings.high = bucketList "High" alerts ∧
    r.findings.medium = bucketList "Medium" alerts ∧
    r.findings.low = bucketList "Low" alerts ∧
    r.findings.info = bucketList "Informational" alerts := by
  cases hp : processAlerts alerts ⟨0, 0, 0, 0⟩ ⟨[], [], [], []⟩ with
  | error u => simp [generate_report, hp] at h
  | ok p =>
    obtain ⟨c, d⟩ := p
    simp [generate_report, hp] at h
    obtain ⟨hs, hh, hm, hl, hi⟩ := processAlerts_spec alerts _ _ _ _ hp
    subst h
    simp at hs hh hm hl hi
    exact ⟨rfl, rfl, by simpa using hs, rfl, hh, hm, hl, hi⟩

lemma processAlerts_error {a : Alert}
    (h1 : classify a ≠ "High") (h2 : classify a ≠ "Medium")
    (h3 : classify a ≠ "Low") (h4 : classify a ≠ "Informational") :
    ∀ (l1 l2 : List Alert) (c : RiskCounts) (d : DetailedFindings),
      processAlerts (l1 ++ a :: l2) c d = .error () := by
  intro l1
  induction l1 with
  | nil =>
    intro l2 c d
    simp only [List.nil_append, processAlerts, bump_bad h1 h2 h3 h4]
  | cons b t ih =>
    intro l2 c d
    simp only [List.cons_append, processAlerts]
    cases hb : bump c d b with
    | error u => cases u; rfl
    | ok p => obtain ⟨cb, db⟩ := p; exact ih l2 cb db

lemma processAlerts_total : ∀ (l : List Alert),
    (∀ a ∈ l, classify a = "High" ∨ classify a = "Medium" ∨
      classify a = "Low" ∨ classify a = "Informational") →
    ∀ c d, ∃ p, processAlerts l c d = .ok p := by
  intro l
  induction l with
  | nil => intro _ c d; exact ⟨(c, d), rfl⟩
  | cons a t ih =>
    intro hgood c d
    have hrest : ∀ b ∈ t, classify b = "High" ∨ classify b = "Medium" ∨
        classify b = "Low" ∨ classify b = "Informational" :=
      fun b hb => hgood b (List.mem_cons_of_mem _ hb)
    rcases hgood a (List.mem_cons_self _ _) with h | h | h | h
    · obtain ⟨p, hp⟩ := ih hrest { c with high := c.high + 1 }
        { d with high := d.high ++ [mkFinding a] }
      exact ⟨p, by simp only [processAlerts, bump_high h]; exact hp⟩
    · obtain ⟨p, hp⟩ := ih hrest { c with medium := c.medium + 1 }
        { d with medium := d.medium ++ [mkFinding a] }
      exact ⟨p, by simp only [processAlerts, bump_medium h]; exact hp⟩
    · obtain ⟨p, hp⟩ := ih hrest { c with low := c.low + 1 }
        { d with low := d.low ++ [mkFinding a] }
      exact ⟨p, by simp only [processAlerts, bump_low h]; exact hp⟩
    · obtain ⟨p, hp⟩ := ih hrest { c with info := c.info + 1 }
        { d with info := d.info ++ [mkFinding a] }
      exact ⟨p, by simp only [processAlerts, bump_info h]; exact hp⟩

lemma waitReady_true_iff (e : Env) :
    ∀ n k, (waitReady e k n).2 = true ↔
      ∃ i, i < n ∧ e.version (k + i) = .status 200 ∧
        ∀ j, j < i → e.version (k + j) ≠ .status 200 ∧ e.version (k + j) ≠ .exn := by
  intro n
  induction n with
  | zero => intro k; simp [waitReady]
  | succ n ih =>
    intro k
    rcases hv : e.version k with m | _ | _
    · by_cases hm : m = 200
      · subst hm
        constructor
        · intro _
          refine ⟨0, Nat.succ_pos n, by simpa using hv, ?_⟩
          intro j hj
          exact absurd hj (Nat.not_lt_zero j)
        · intro _
          simp [waitReady, hv]
      · have hstep : (waitReady e k (n + 1)).2 = (waitReady e (k + 1) n).2 := by
          simp [waitReady, hv, hm]
        rw [hstep, ih (k + 1)]
        constructor
        · rintro ⟨i, hi, h200, hguard⟩
          refine ⟨i + 1, by omega,
            by rw [show k + (i + 1) = k + 1 + i from by omega]; exact h200, ?_⟩
          intro j hj
          cases j with
          | zero =>
            rw [Nat.add_zero, hv]
            constructor
            · intro hc
              injection hc with hc2
              exact hm hc2
            · intro hc
              cases hc
          | succ j =>
            rw [show k + (j + 1) = k + 1 + j from by omega]
            exact hguard j (by omega)
        · rintro ⟨i, hi, h200, hguard⟩
          cases i with
          | zero =>
            rw [Nat.add_zero, hv] at h200
            injection h200 with hc2
            exact absurd hc2 hm
          | succ i =>
            refine ⟨i, by omega,
              by rw [show k + 1 + i = k + (i + 1) from by omega]; exact h200, ?_⟩
            intro j hj
            have hg := hguard (j + 1) (by omega)
            rw [show k + (j + 1) = k + 1 + j from by omega] at hg
            exact hg
    · have hstep : (waitReady e k (n + 1)).2 = (waitReady e (k + 1) n).2 := by
        simp [waitReady, hv]
      rw [hstep, ih (k + 1)]
      constructor
      · rintro ⟨i, hi, h200, hguard⟩
        refine ⟨i + 1, by omega,
          by rw [show k + (i + 1) = k + 1 + i from by omega]; exact h200, ?_⟩
        intro j hj
        cases j with
        | zero =>
          rw [Nat.add_zero, hv]
          exact ⟨fun hc => VResp.noConfusion hc, fun hc => VResp.noConfusion hc⟩
        | succ j =>
          rw [show k + (j + 1) = k + 1 + j from by omega]
          exact hguard j (by omega)
      · rintro ⟨i, hi, h200, hguard⟩
        cases i with
        | zero =>
          rw [Nat.add_zero, hv] at h200
          cases h200
        | succ i =>
          refine ⟨i, by omega,
            by rw [show k + 1 + i = k + (i + 1) from by omega]; exact h200, ?_⟩
          intro j hj
          have hg := hguard (j + 1) (by omega)
          rw [show k + (j + 1) = k + 1 + j from by omega] at hg
          exact hg
    · have hstep : (waitReady e k (n + 1)).2 = false := by
        simp [waitReady, hv]
      rw [hstep]
      constructor
      · intro hc
        exact Bool.noConfusion hc
      · rintro ⟨i, hi, h200, hguard⟩
        cases i with
        | zero =>
          rw [Nat.add_zero, hv] at h200
          cases h200
        | succ i =>
          have hg := hguard 0 (Nat.succ_pos i)
          rw [Nat.add_zero, hv] at hg
          exact absurd rfl hg.2

lemma pyReplace_eq_self (p : Char) (ps rep : List Char) :
    ∀ (fuel : Nat) (s : List Char), hasSub p ps s = false →
      pyReplace p ps rep fuel s = s := by
  intro fuel
  induction fuel with
  | zero => intro s h; rfl
  | succ n ih =>
    intro s h
    cases s with
    | nil => rfl
    | cons c t =>
      rw [hasSub, Bool.or_eq_false_iff] at h
      simp only [pyReplace]
      rw [if_neg (by simp [h.1]), ih t h.2]

lemma defaultApiUrl_eq_self {target : String}
    (h : hasSub ':' ['3', '0', '0', '0'] target.data = false) :
    defaultApiUrl target = target := by
  unfold defaultApiUrl
  rw [pyReplace_eq_self ':' ['3', '0', '0', '0'] [':', '8', '0', '8', '0']
    target.data.length target.data h]

lemma run_trace_cases (e : Env) (fuel : Nat) :
    (run_full_scan e fuel).1 = (start_zap_daemon e).1 ∨
    ∃ T, ((run_full_scan e fuel).1 =
      (start_zap_daemon e).1 ++ (tryBlock e fuel).1 ++ T) ∧
      (T = [Event.stop] ∨ T = []) := by
  rcases run_full_scan_cases e fuel with ⟨_, hr⟩ | ⟨_, _, hr⟩ | ⟨_, _, hr⟩ | ⟨_, _, hr⟩
  · exact Or.inl (by rw [hr])
  · exact Or.inr ⟨[Event.stop], by rw [hr], Or.inl rfl⟩
  · exact Or.inr ⟨[Event.stop], by rw [hr], Or.inl rfl⟩
  · exact Or.inr ⟨[], by rw [hr]; simp, Or.inr rfl⟩

lemma report_ne_spin (e : Env) : (generate_report_events e).2 ≠ .spin := by
  cases ha : e.alerts with
  | exn => simp [generate_report_events, ha]
  | ok alerts =>
    cases hg : generate_report e.now e.targetUrl alerts with
    | error u => simp [generate_report_events, ha, hg]
    | ok rep =>
      by_cases hj : e.jsonWriteOk
      · cases hh : e.htmlResp <;> simp [generate_report_events, ha, hg, hj, hh]
      · simp [generate_report_events, ha, hg, hj]

lemma report_phase_html (e : Env)
    (hmem : Event.htmlReq ∈ (generate_report_events e).1) :
    (generate_report_events e).1 = [Event.jsonWrite, Event.htmlReq] ∧
    ((generate_report_events e).2 = .ok ↔ e.htmlResp = .ok ()) ∧
    ((generate_report_events e).2 = .exn ↔ e.htmlResp = .exn) := by
  cases ha : e.alerts with
  | exn => simp [generate_report_events, ha] at hmem
  | ok alerts =>
    cases hg : generate_report e.now e.targetUrl alerts with
    | error u => simp [generate_report_events, ha, hg] at hmem
    | ok rep =>
      by_cases hj : e.jsonWriteOk
      · cases hh : e.htmlResp with
        | ok v =>
          cases v
          refine ⟨?_, ?_, ?_⟩ <;> simp [generate_report_events, ha, hg, hj, hh]
        | exn =>
          refine ⟨?_, ?_, ?_⟩ <;> simp [generate_report_events, ha, hg, hj, hh]
      · simp [generate_report_events, ha, hg, hj] at hmem

lemma tryBlock_ascan_shape (e : Env) (fuel : Nat)
    (hmem : Event.ascanStartReq ∈ (tryBlock e fuel).1) :
    (run_spider_scan e fuel).2 = .ok ∧
    ∃ S, (tryBlock e fuel).1 =
      (configure_zap e).1 ++ ((run_spider_scan e fuel).1 ++ S) := by
  rcases tryBlock_cases e fuel with ⟨hc, htb⟩ | ⟨hc, hsp, htb⟩ | ⟨hc, hsp, htb⟩ |
    ⟨hc, hsp, has, htb⟩ | ⟨hc, hsp, has, htb⟩ | ⟨hc, hsp, has, hgr, htb⟩ |
    ⟨hc, hsp, has, hgr, htb⟩
  · exfalso
    rw [htb] at hmem
    dsimp only at hmem
    rcases configure_events e _ hmem with h1 | h1 <;> cases h1
  · exfalso
    rw [htb] at hmem
    dsimp only at hmem
    rcases List.mem_append.mp hmem with hm | hm
    · rcases configure_events e _ hm with h1 | h1 <;> cases h1
    · rcases spider_events e fuel _ hm with h1 | ⟨rr, h1⟩ <;> cases h1
  · exfalso
    rw [htb] at hmem
    dsimp only at hmem
    rcases List.mem_append.mp hmem with hm | hm
    · rcases configure_events e _ hm with h1 | h1 <;> cases h1
    · rcases spider_events e fuel _ hm with h1 | ⟨rr, h1⟩ <;> cases h1
  · exact ⟨hsp, (run_active_scan e fuel).1, by rw [htb]⟩
  · exact ⟨hsp, (run_active_scan e fuel).1, by rw [htb]⟩
  · exact ⟨hsp, (run_active_scan e fuel).1 ++ [Event.alertsReq], by rw [htb]⟩
  · exact ⟨hsp, (run_active_scan e fuel).1 ++
      ([Event.alertsReq] ++ (generate_report_events e).1), by rw [htb]⟩

lemma tryBlock_html_shape (e : Env) (fuel : Nat)
    (hmem : Event.htmlReq ∈ (tryBlock e fuel).1) :
    Event.htmlReq ∈ (generate_report_events e).1 ∧
    Event.jsonWrite ∈ (tryBlock e fuel).1 ∧
    (tryBlock e fuel).2 = (generate_report_events e).2 := by
  rcases tryBlock_cases e fuel with ⟨hc, htb⟩ | ⟨hc, hsp, htb⟩ | ⟨hc, hsp, htb⟩ |
    ⟨hc, hsp, has, htb⟩ | ⟨hc, hsp, has, htb⟩ | ⟨hc, hsp, has, hgr, htb⟩ |
    ⟨hc, hsp, has, hgr, htb⟩
  · exfalso
    rw [htb] at hmem
    dsimp only at hmem
    rcases configure_events e _ hmem with h1 | h1 <;> cases h1
  · exfalso
    rw [htb] at hmem
    dsimp only at hmem
    rcases List.mem_append.mp hmem with hm | hm
    · rcases configure_events e _ hm with h1 | h1 <;> cases h1
    · rcases spider_events e fuel _ hm with h1 | ⟨rr, h1⟩ <;> cases h1
  · exfalso
    rw [htb] at hmem
    dsimp only at hmem
    rcases List.mem_append.mp hmem with hm | hm
    · rcases configure_events e _ hm with h1 | h1 <;> cases h1
    · rcases spider_events e fuel _ hm with h1 | ⟨rr, h1⟩ <;> cases h1
  · exfalso
    rw [htb] at hmem
    dsimp only at hmem
    rcases List.mem_append.mp hmem with hm | hm
    · rcases configure_events e _ hm with h1 | h1 <;> cases h1
    rcases List.mem_append.mp hm with hm1 | hm1
    · rcases spider_events e fuel _ hm1 with h1 | ⟨rr, h1⟩ <;> cases h1
    · rcases ascan_events e fuel _ hm1 with h1 | ⟨rr, h1⟩ <;> cases h1
  · exfalso
    rw [htb] at hmem
    dsimp only at hmem
    rcases List.mem_append.mp hmem with hm | hm
    · rcases configure_events e _ hm with h1 | h1 <;> cases h1
    rcases List.mem_append.mp hm with hm1 | hm1
    · rcases spider_events e fuel _ hm1 with h1 | ⟨rr, h1⟩ <;> cases h1
    · rcases ascan_events e fuel _ hm1 with h1 | ⟨rr, h1⟩ <;> cases h1
  · exfalso
    rw [htb] at hmem
    dsimp only at hmem
    rcases List.mem_append.mp hmem with hm | hm
    · rcases configure_events e _ hm with h1 | h1 <;> cases h1
    rcases List.mem_append.mp hm with hm1 | hm1
    · rcases spider_events e fuel _ hm1 with h1 | ⟨rr, h1⟩ <;> cases h1
    rcases List.mem_append.mp hm1 with hm2 | hm2
    · rcases ascan_events e fuel _ hm2 with h1 | ⟨rr, h1⟩ <;> cases h1
    · simp at hm2
  · rw [htb] at hmem
    dsimp only at hmem
    have hg : Event.htmlReq ∈ (generate_report_events e).1 := by
      rcases List.mem_append.mp hmem with hm | hm
      · exfalso; rcases configure_events e _ hm with h1 | h1 <;> cases h1
      rcases List.mem_append.mp hm with hm1 | hm1
      · exfalso; rcases spider_events e fuel _ hm1 with h1 | ⟨rr, h1⟩ <;> cases h1
      rcases List.mem_append.mp hm1 with hm2 | hm2
      · exfalso; rcases ascan_events e fuel _ hm2 with h1 | ⟨rr, h1⟩ <;> cases h1
      rcases List.mem_append.mp hm2 with hm3 | hm3
      · exfalso; simp at hm3
      · exact hm3
    obtain ⟨h1, _, _⟩ := report_phase_html e hg
    refine ⟨hg, ?_, by rw [htb]⟩
    rw [htb]
    dsimp only
    refine List.mem_append_right _ (List.mem_append_right _
      (List.mem_append_right _ (List.mem_append_right _ ?_)))
    rw [h1]
    exact List.mem_cons_self _ _

/-- C1 counterexample: in a run where the engine process spawns but never
becomes ready (`envNoReady`: every readiness poll raises `ConnectionError`),
the script takes the `sys.exit(1)` exit path without ever invoking
engine-shutdown — the trace contains zero `stop` events even though the
process was spawned.  This refutes the claim that engine-shutdown is invoked
exactly once "also when engine start or readiness fails after the process was
spawned". -/
theorem shutdown_missing_on_ready_failure :
    envNoReady.spawnOk = true ∧
    (run_full_scan envNoReady 1).2 = RunResult.exit1 ∧
    countStop (run_full_scan envNoReady 1).1 = 0 := by decide

/-- C1 (amended): engine-shutdown (`terminate()` plus `wait()`) is invoked
exactly once on every exit path entered after the engine became ready — on
success, and when an exception is raised during configuration, discovery,
probing, or report generation; but when engine start or readiness fails
(even after the process was spawned) the run exits with code 1 without
invoking engine-shutdown. -/
theorem shutdown_once_after_ready (e : Env) (fuel : Nat) :
    (((run_full_scan e fuel).2 = RunResult.completed ∨
      (run_full_scan e fuel).2 = RunResult.raised) →
      countStop (run_full_scan e fuel).1 = 1) ∧
    ((run_full_scan e fuel).2 = RunResult.exit1 →
      countStop (run_full_scan e fuel).1 = 0) := by
  have h1 := countStop_eq_zero (stop_not_mem_start e)
  have h2 := countStop_eq_zero (stop_not_mem_tryBlock e fuel)
  rcases run_full_scan_cases e fuel with ⟨hs, hr⟩ | ⟨hs, ht, hr⟩ | ⟨hs, ht, hr⟩ |
    ⟨hs, ht, hr⟩ <;> rw [hr] <;> constructor
  · rintro (hc | hc) <;> simp at hc
  · intro _
    exact h1
  · intro _
    simp [countStop_append, countStop, h1, h2]
  · intro hc
    simp at hc
  · intro _
    simp [countStop_append, countStop, h1, h2]
  · intro hc
    simp at hc
  · rintro (hc | hc) <;> simp at hc
  · intro hc
    simp at hc

/-- C1 witness: in the all-successful environment the run completes and the
trace contains exactly one engine-shutdown. -/
theorem shutdown_once_after_ready_witness :
    ((run_full_scan envOk 1).2 = RunResult.completed ∨
      (run_full_scan envOk 1).2 = RunResult.raised) ∧
    countStop (run_full_scan envOk 1).1 = 1 :=
  ⟨Or.inl (by decide), (shutdown_once_after_ready envOk 1).1 (Or.inl (by decide))⟩

/-- C2: whenever `generate_report` produces a report, the four severity
counts sum to `total_alerts`, which equals the number of alerts ingested;
and on the empty alert list the report has all severity counts 0 and
`total_alerts = 0`. -/
theorem report_sum_invariant :
    (∀ (now target : String) (alerts : List Alert) (r : Report),
      generate_report now target alerts = .ok r →
      r.summary.high + r.summary.medium + r.summary.low + r.summary.info =
        r.total_alerts ∧
      r.total_alerts = alerts.length) ∧
    (∀ now target : String, generate_report now target [] =
      .ok { scan_date := now, target_url := target, summary := ⟨0, 0, 0, 0⟩,
            findings := ⟨[], [], [], []⟩, total_alerts := 0 }) := by
  constructor
  · intro now target alerts r h
    obtain ⟨_, _, hs, htot, _⟩ := generate_report_spec h
    exact ⟨by rw [hs, htot], htot⟩
  · intro now target
    rfl

/-- C2 witness: the sum invariant instantiated on a concrete two-alert run. -/
theorem report_sum_invariant_witness :
    generate_report "d" "u" sampleAlerts = .ok sampleReport ∧
    (sampleReport.summary.high + sampleReport.summary.medium +
      sampleReport.summary.low + sampleReport.summary.info =
        sampleReport.total_alerts ∧
      sampleReport.total_alerts = sampleAlerts.length) :=
  ⟨rfl, report_sum_invariant.1 "d" "u" sampleAlerts sampleReport rfl⟩

/-- C3 counterexample: an alert whose `risk` is `"Critical"` (present but not
one of the four fixed keys) makes `generate_report` raise a `KeyError`
(`Except.error`), instead of being classified as `Informational` and
completing without error as the claim states. -/
theorem unknown_severity_keyerror :
    alertCritical.risk = some "Critical" ∧
    generate_report "d" "u" [alertCritical] = .error () := ⟨rfl, rfl⟩

/-- C3 (amended): a finding with a missing severity is classified as
`Informational` (and in successful runs lands in the `Informational`
bucket, which exists whenever every severity is missing or recognized); but
a finding whose severity value is outside `{High, Medium, Low,
Informational}` makes report generation raise a `KeyError` rather than being
classified. -/
theorem severity_default_amended :
    (∀ a : Alert, a.risk = none → classify a = "Informational") ∧
    (∀ (now target : String) (l1 l2 : List Alert) (a : Alert),
      classify a ≠ "High" → classify a ≠ "Medium" → classify a ≠ "Low" →
      classify a ≠ "Informational" →
      generate_report now target (l1 ++ a :: l2) = .error ()) ∧
    (∀ (now target : String) (alerts : List Alert),
      (∀ a ∈ alerts, classify a = "High" ∨ classify a = "Medium" ∨
        classify a = "Low" ∨ classify a = "Informational") →
      ∃ r, generate_report now target alerts = .ok r ∧
        r.findings.info = bucketList "Informational" alerts) := by
  refine ⟨?_, ?_, ?_⟩
  · intro a h
    simp [classify, h]
  · intro now target l1 l2 a h1 h2 h3 h4
    have hp := processAlerts_error h1 h2 h3 h4 l1 l2 ⟨0, 0, 0, 0⟩ ⟨[], [], [], []⟩
    simp [generate_report, hp]
  · intro now target alerts hgood
    obtain ⟨p, hp⟩ := processAlerts_total alerts hgood ⟨0, 0, 0, 0⟩ ⟨[], [], [], []⟩
    obtain ⟨c, d⟩ := p
    refine ⟨{ scan_date := now, target_url := target, summary := c, findings := d
              total_alerts := alerts.length }, ?_, ?_⟩
    · simp [generate_report, hp]
    · obtain ⟨_, _, _, _, hi⟩ := processAlerts_spec alerts _ _ _ _ hp
      simpa using hi

/-- C3 witness: a bare alert has missing severity and classifies as
`Informational`; appending a `"Critical"` alert to a well-formed list makes
report generation error out. -/
theorem severity_default_amended_witness :
    (alertBare.risk = none ∧ classify alertBare = "Informational") ∧
    generate_report "d" "u" ([alertHigh] ++ alertCritical :: []) = .error () :=
  ⟨⟨rfl, severity_default_amended.1 alertBare rfl⟩,
   severity_default_amended.2.1 "d" "u" [alertHigh] [] alertCritical
     (by decide) (by decide) (by decide) (by decide)⟩

/-- C4: in every run, wherever the trace contains the active-scan start
request, an observation of the discovery (spider) scan in the `'100'`
(Complete) state occurs strictly earlier in the trace: probing is never
submitted before discovery has been observed complete. -/
theorem ascan_after_spider_complete (e : Env) (fuel : Nat) (l r : List Event)
    (h : (run_full_scan e fuel).1 = l ++ Event.ascanStartReq :: r) :
    Event.spiderStatus (Resp.ok "100") ∈ l := by
  have hmem : Event.ascanStartReq ∈ (run_full_scan e fuel).1 := by
    rw [h]
    exact List.mem_append_right _ (List.mem_cons_self _ _)
  rcases run_trace_cases e fuel with hr | ⟨T, hr, hT⟩
  · rw [hr] at hmem
    rcases start_events e _ hmem with h1 | h1 <;> cases h1
  · have hmem2 : Event.ascanStartReq ∈ (tryBlock e fuel).1 := by
      rw [hr] at hmem
      rcases List.mem_append.mp hmem with hm | hm
      · rcases List.mem_append.mp hm with hm1 | hm1
        · exfalso
          rcases start_events e _ hm1 with h1 | h1 <;> cases h1
        · exact hm1
      · exfalso
        rcases hT with rfl | rfl <;> simp at hm
    obtain ⟨hsp, S, hshape⟩ := tryBlock_ascan_shape e fuel hmem2
    have hy : Event.spiderStatus (Resp.ok "100") ∈
        (start_zap_daemon e).1 ++
          ((configure_zap e).1 ++ (run_spider_scan e fuel).1) :=
      List.mem_append_right _
        (List.mem_append_right _ (spider_ok_mem e fuel hsp))
    have hx : Event.ascanStartReq ∉
        (start_zap_daemon e).1 ++
          ((configure_zap e).1 ++ (run_spider_scan e fuel).1) := by
      intro hm
      rcases List.mem_append.mp hm with hm1 | hm1
      · rcases start_events e _ hm1 with h1 | h1 <;> cases h1
      rcases List.mem_append.mp hm1 with hm2 | hm2
      · rcases configure_events e _ hm2 with h1 | h1 <;> cases h1
      · rcases spider_events e fuel _ hm2 with h1 | ⟨rr, h1⟩ <;> cases h1
    apply mem_left_of_append_eq _ (S ++ T) l r _ _ hx hy
    rw [hr, hshape] at h
    simp only [List.append_assoc] at h ⊢
    exact h

/-- C4 witness: in the all-successful run the spider-complete observation
precedes the active-scan start request in the trace. -/
theorem ascan_after_spider_complete_witness :
    (run_full_scan envOk 1).1 =
      [Event.spawn, Event.versionReq, Event.includeCtxReq, Event.healthProbe,
       Event.spiderStartReq, Event.spiderStatus (Resp.ok "100")] ++
      Event.ascanStartReq ::
      [Event.ascanStatus (Resp.ok "100"), Event.alertsReq, Event.jsonWrite,
       Event.htmlReq, Event.stop] ∧
    Event.spiderStatus (Resp.ok "100") ∈
      [Event.spawn, Event.versionReq, Event.includeCtxReq, Event.healthProbe,
       Event.spiderStartReq, Event.spiderStatus (Resp.ok "100")] :=
  ⟨by decide,
   ascan_after_spider_complete envOk 1
     [Event.spawn, Event.versionReq, Event.includeCtxReq, Event.healthProbe,
      Event.spiderStartReq, Event.spiderStatus (Resp.ok "100")]
     [Event.ascanStatus (Resp.ok "100"), Event.alertsReq, Event.jsonWrite,
      Event.htmlReq, Event.stop] (by decide)⟩

/-- C5: `has_auth` returns `true` exactly when the health probe returned
HTTP status 401; every other outcome — any other status, or any exception
(connection error, timeout) — yields `false`.  The embedded function is
total, matching the bare `except:` that prevents any exception from
escaping. -/
theorem has_auth_iff_401 (r : Resp Nat) : has_auth r = true ↔ r = Resp.ok 401 := by
  cases r with
  | ok n => simp [has_auth]
  | exn => simp [has_auth]

/-- C5 witness: a 401 probe outcome makes `has_auth` return `true`. -/
theorem has_auth_iff_401_witness : has_auth (Resp.ok 401) = true :=
  (has_auth_iff_401 (Resp.ok 401)).mpr rfl

/-- C6 counterexample: with every readiness poll answering HTTP 204 — a 2xx
status — the readiness wait returns `false` after its 30 attempts, refuting
the claim that it returns `true` on "any 2xx response": the source compares
`status_code == 200` exactly. -/
theorem waitReady_rejects_204 :
    env204.version 0 = VResp.status 204 ∧ (200 ≤ 204 ∧ 204 < 300) ∧
    (waitReady env204 0 30).2 = false := by decide

/-- C6 (amended): the readiness wait polls the version endpoint for up to 30
attempts (sleeping 2 seconds only after a connection error) and returns
`true` exactly when some attempt `i < 30` answers HTTP status exactly 200
while every earlier attempt was a connection error or a non-200 status
(other 2xx codes included — they just continue the loop); a non-connection
exception aborts the wait, and in all other cases it returns `false` rather
than raising (the embedded function is total). -/
theorem waitReady_characterization (e : Env) :
    (waitReady e 0 30).2 = true ↔
      ∃ i, i < 30 ∧ e.version i = .status 200 ∧
        ∀ j, j < i → e.version j ≠ .status 200 ∧ e.version j ≠ .exn := by
  have h := waitReady_true_iff e 30 0
  simpa using h

/-- C6 witness: the characterization applied to the environment whose first
poll answers 200. -/
theorem waitReady_characterization_witness : (waitReady envOk 0 30).2 = true :=
  (waitReady_characterization envOk).mpr
    ⟨0, by decide, by decide, fun j hj => absurd hj (Nat.not_lt_zero j)⟩

/-- C7 counterexample: in a run where everything succeeds except that the
HTML-report request raises, the JSON report is written (`jsonWrite` is in the
trace) but the exception propagates out of `run_full_scan` and the run ends
in `raised` (a non-zero interpreter exit), refuting the claim that an error
in the HTML export request "is ignored and does not propagate". -/
theorem html_export_exn_propagates :
    envHtmlFail.htmlResp = Resp.exn ∧
    Event.jsonWrite ∈ (run_full_scan envHtmlFail 1).1 ∧
    (run_full_scan envHtmlFail 1).2 = RunResult.raised := by decide

/-- C7 (amended): whenever the HTML-report export is attempted, the JSON
report has already been written (an HTTP error status in the export response
is indeed ignored — the response is never checked); but an exception raised
by the export request propagates: the run completes if and only if the
export request did not raise. -/
theorem html_export_failure_amended (e : Env) (fuel : Nat)
    (h : Event.htmlReq ∈ (run_full_scan e fuel).1) :
    Event.jsonWrite ∈ (run_full_scan e fuel).1 ∧
    ((run_full_scan e fuel).2 = RunResult.completed ↔
      e.htmlResp = Resp.ok ()) := by
  rcases run_full_scan_cases e fuel with ⟨hs, hr⟩ | ⟨hs, ht, hr⟩ | ⟨hs, ht, hr⟩ |
    ⟨hs, ht, hr⟩
  · exfalso
    rw [hr] at h
    dsimp only at h
    rcases start_events e _ h with h1 | h1 <;> cases h1
  · have hmem2 : Event.htmlReq ∈ (tryBlock e fuel).1 := by
      rw [hr] at h
      dsimp only at h
      rcases List.mem_append.mp h with hm | hm
      · rcases List.mem_append.mp hm with hm1 | hm1
        · exfalso
          rcases start_events e _ hm1 with h1 | h1 <;> cases h1
        · exact hm1
      · exfalso
        simp at hm
    obtain ⟨hg, hjs, hres⟩ := tryBlock_html_shape e fuel hmem2
    obtain ⟨_, hok, _⟩ := report_phase_html e hg
    constructor
    · rw [hr]
      dsimp only
      exact List.mem_append_left _ (List.mem_append_right _ hjs)
    · rw [hr]
      dsimp only
      constructor
      · intro _
        exact hok.mp (by rw [← hres]; exact ht)
      · intro _
        rfl
  · have hmem2 : Event.htmlReq ∈ (tryBlock e fuel).1 := by
      rw [hr] at h
      dsimp only at h
      rcases List.mem_append.mp h with hm | hm
      · rcases List.mem_append.mp hm with hm1 | hm1
        · exfalso
          rcases start_events e _ hm1 with h1 | h1 <;> cases h1
        · exact hm1
      · exfalso
        simp at hm
    obtain ⟨hg, hjs, hres⟩ := tryBlock_html_shape e fuel hmem2
    obtain ⟨_, _, hexn⟩ := report_phase_html e hg
    constructor
    · rw [hr]
      dsimp only
      exact List.mem_append_left _ (List.mem_append_right _ hjs)
    · rw [hr]
      dsimp only
      constructor
      · intro hc
        cases hc
      · intro hc
        have hx : (generate_report_events e).2 = .exn := by
          rw [← hres]
          exact ht
        have hy := hexn.mp hx
        rw [hc] at hy
        cases hy
  · have hmem2 : Event.htmlReq ∈ (tryBlock e fuel).1 := by
      rw [hr] at h
      dsimp only at h
      rcases List.mem_append.mp h with hm | hm
      · exfalso
        rcases start_events e _ hm with h1 | h1 <;> cases h1
      · exact hm
    obtain ⟨hg, _, hres⟩ := tryBlock_html_shape e fuel hmem2
    exfalso
    apply report_ne_spin e
    rw [← hres]
    exact ht

/-- C7 witness: the all-successful run attempts the HTML export, the JSON
report is in the trace, and the run completes because the export did not
raise. -/
theorem html_export_failure_amended_witness :
    Event.htmlReq ∈ (run_full_scan envOk 1).1 ∧
    (Event.jsonWrite ∈ (run_full_scan envOk 1).1 ∧
      ((run_full_scan envOk 1).2 = RunResult.completed ↔
        envOk.htmlResp = Resp.ok ())) :=
  ⟨by decide, html_export_failure_amended envOk 1 (by decide)⟩

/-- C8: if the engine fails to start (spawn failure) or fails to become
ready (the 30-attempt wait returns false), the script exits with code 1
before any scope or scan step executes (the trace contains no scope
registration, no discovery start and no probing start); and a completed run
exits with code 0 — for every environment, hence regardless of how many
findings the alerts request reported. -/
theorem exit_codes_spec (e : Env) (fuel : Nat) :
    ((e.spawnOk = false ∨ (waitReady e 0 30).2 = false) →
      script_exit e fuel = some 1 ∧
      Event.includeCtxReq ∉ (run_full_scan e fuel).1 ∧
      Event.spiderStartReq ∉ (run_full_scan e fuel).1 ∧
      Event.ascanStartReq ∉ (run_full_scan e fuel).1) ∧
    ((run_full_scan e fuel).2 = RunResult.completed →
      script_exit e fuel = some 0) := by
  constructor
  · intro hfail
    have hs : (start_zap_daemon e).2 = false := by
      rcases hfail with hf | hf
      · simp [start_zap_daemon, hf]
      · by_cases hsp : e.spawnOk
        · simp [start_zap_daemon, hsp, hf]
        · simp [start_zap_daemon, hsp]
    have hr : run_full_scan e fuel = ((start_zap_daemon e).1, .exit1) := by
      rcases run_full_scan_cases e fuel with ⟨_, hr⟩ | ⟨hs2, _, _⟩ | ⟨hs2, _, _⟩ |
        ⟨hs2, _, _⟩
      · exact hr
      all_goals exact absurd hs2 (by simp [hs])
    refine ⟨?_, ?_, ?_, ?_⟩
    · rw [script_exit, hr]
      rfl
    · rw [hr]
      dsimp only
      intro hm
      rcases start_events e _ hm with h1 | h1 <;> cases h1
    · rw [hr]
      dsimp only
      intro hm
      rcases start_events e _ hm with h1 | h1 <;> cases h1
    · rw [hr]
      dsimp only
      intro hm
      rcases start_events e _ hm with h1 | h1 <;> cases h1
  · intro hc
    rw [script_exit, hc]
    rfl

/-- C8 witness: a spawn-but-never-ready environment exits 1, and the
all-successful environment (whatever its findings) exits 0. -/
theorem exit_codes_spec_witness :
    (envNoReady.spawnOk = false ∨ (waitReady envNoReady 0 30).2 = false) ∧
    script_exit envNoReady 1 = some 1 ∧
    (run_full_scan envOk 1).2 = RunResult.completed ∧
    script_exit envOk 1 = some 0 :=
  ⟨Or.inr (by decide),
   ((exit_codes_spec envNoReady 1).1 (Or.inr (by decide))).1,
   by decide,
   (exit_codes_spec envOk 1).2 (by decide)⟩

/-- C9: in every generated report, each severity bucket holds exactly the
findings classified with that severity, in the same relative order as in the
retrieved alerts list (`bucketList` selects in retrieval order): the
grouping is stable and buckets are never re-sorted. -/
theorem buckets_stable_order (now target : String) (alerts : List Alert)
    (r : Report) (h : generate_report now target alerts = .ok r) :
    r.findings.high = bucketList "High" alerts ∧
    r.findings.medium = bucketList "Medium" alerts ∧
    r.findings.low = bucketList "Low" alerts ∧
    r.findings.info = bucketList "Informational" alerts := by
  obtain ⟨_, _, _, _, hh, hm, hl, hi⟩ := generate_report_spec h
  exact ⟨hh, hm, hl, hi⟩

/-- C9 witness: the bucket equalities instantiated on a concrete two-alert
run. -/
theorem buckets_stable_order_witness :
    generate_report "d" "u" sampleAlerts = .ok sampleReport ∧
    (sampleReport.findings.high = bucketList "High" sampleAlerts ∧
      sampleReport.findings.medium = bucketList "Medium" sampleAlerts ∧
      sampleReport.findings.low = bucketList "Low" sampleAlerts ∧
      sampleReport.findings.info = bucketList "Informational" sampleAlerts) :=
  ⟨rfl, buckets_stable_order "d" "u" sampleAlerts sampleReport rfl⟩

/-- C10: when no API base URL is supplied, the default is the target URL
with every occurrence of `":3000"` replaced by `":8080"` (Python
`str.replace` semantics, embedded as `pyReplace` — the concrete conjunct
shows both occurrences in a two-occurrence URL being replaced), and for
every target URL not containing `":3000"` the defaulted API URL is the
target URL itself. -/
theorem default_api_url_spec (target : String) :
    initApiUrl target none = defaultApiUrl target ∧
    initApiUrl "http://h:3000/x:3000" none = "http://h:8080/x:8080" ∧
    (hasSub ':' ['3', '0', '0', '0'] target.data = false →
      initApiUrl target none = target) := by
  refine ⟨rfl, by decide, ?_⟩
  intro h
  exact defaultApiUrl_eq_self h

/-- C10 witness: a target URL without `":3000"` defaults to itself. -/
theorem default_api_url_spec_witness :
    hasSub ':' ['3', '0', '0', '0'] ("http://localhost:8080").data = false ∧
    initApiUrl "http://localhost:8080" none = "http://localhost:8080" :=
  ⟨by decide, (default_api_url_spec "http://localhost:8080").2.2 (by decide)⟩
